import Mathlib

/-!
Shallow embedding of the stock-sentiment backend (`src/main.py`).

Modelling conventions:
* timestamps are integers counting seconds (UTC); `timedelta(days = d)` is
  `d * 86400` seconds;
* the sentiment classifier (`sentiment_model`) is an external capability,
  modelled as a function `String → Except String SentRes`; a Python
  exception raised by the model is the `Except.error` case carrying the
  exception message;
* the md5 fingerprint of `fetch_news_rss` is modelled as an arbitrary
  function `hash : String → String` applied to the lower-cased title;
* Python float arithmetic is modelled over `ℚ`, and `round(x, 1)` by
  round-half-to-even at one decimal.
-/

/-- Sentiment labels produced by the classifier after `.lower()`. -/
inductive Sentiment where
  | positive
  | negative
  | neutral
deriving DecidableEq, Repr

/-- `res["label"].lower()` as a string. -/
def sentimentStr : Sentiment → String
  | .positive => "positive"
  | .negative => "negative"
  | .neutral => "neutral"

/-- A successful classifier result: `{label, score}`. -/
structure SentRes where
  label : Sentiment
  score : ℚ
deriving DecidableEq, Repr

/-- The classifier capability: text to a result, or a raised exception
(modelled as `Except.error` with the exception message). -/
def Classifier : Type := String → Except String SentRes

/-- A raw feed entry as seen by `parse_time` / the `fetch_news_rss` loop:
`published_parsed` and `updated_parsed` are `none` when the field is
absent, falsy, or `datetime(*t[:6])` raises. -/
structure RawEntry where
  title : String
  link : String
  published_parsed : Option ℤ
  updated_parsed : Option ℤ
  source : Option String
deriving DecidableEq, Repr

/-- A normalized headline entry as appended by the `fetch_news_rss` loop. -/
structure Entry where
  title : String
  link : String
  published : ℤ
  source : Option String
deriving DecidableEq, Repr

/-- One element of the `analyzed` list built by `analyze_headlines`. -/
structure AnalyzedHeadline where
  headline : String
  sentiment : Sentiment
  confidence : ℚ
  link : String
  published : ℤ
  source : Option String
deriving DecidableEq, Repr

/-- Round half to even (Python's `round` tie-breaking) to an integer. -/
def roundHalfEven (q : ℚ) : ℤ :=
  if q - ⌊q⌋ < 1/2 then ⌊q⌋
  else if q - ⌊q⌋ > 1/2 then ⌊q⌋ + 1
  else if ⌊q⌋ % 2 = 0 then ⌊q⌋ else ⌊q⌋ + 1

/-- Python `round(q, 1)`. -/
def pyRound1 (q : ℚ) : ℚ := (roundHalfEven (q * 10) : ℚ) / 10

/-- `clean_headline`: map every whitespace character to a space. -/
def wsToSpace (l : List Char) : List Char :=
  l.map fun c => if c.isWhitespace then ' ' else c

/-- `re.sub(r"\s+", " ", h)` after `wsToSpace`: squeeze runs of spaces
to a single space. -/
def squeezeSpaces : List Char → List Char
  | [] => []
  | [c] => [c]
  | a :: b :: rest =>
    if a = ' ' && b = ' ' then squeezeSpaces (b :: rest)
    else a :: squeezeSpaces (b :: rest)

/-- `.strip()` on a character list (whitespace is a space after
`wsToSpace`). -/
def stripSpaces (l : List Char) : List Char :=
  ((l.dropWhile (· = ' ')).reverse.dropWhile (· = ' ')).reverse

/-- `clean_headline(h)`: collapse whitespace runs to one space and trim. -/
def clean_headline (h : String) : String :=
  if h = "" then ""
  else String.mk (stripSpaces (squeezeSpaces (wsToSpace h.toList)))

/-- `within_last_n_days(dt, days)`:
`dt >= datetime.utcnow() - timedelta(days=days)`, with `now` the value of
`datetime.utcnow()`. -/
def within_last_n_days (dt : ℤ) (now : ℤ) (days : ℤ) : Bool :=
  dt ≥ now - days * 86400

/-- `parse_time(entry)`: first truthy parsable of `published_parsed`,
`updated_parsed`, else `datetime.utcnow()` (`now`). -/
def parse_time (e : RawEntry) (now : ℤ) : ℤ :=
  match e.published_parsed with
  | some t => t
  | none =>
    match e.updated_parsed with
    | some t => t
    | none => now

/-- The recursion behind `dedupe_keep_order`, carrying the `seen` set
(modelled as the list of keys inserted so far). -/
def dedupeAux {α κ : Type} [DecidableEq κ] (keyfunc : α → κ) :
    List α → List κ → List α
  | [], _ => []
  | it :: rest, seen =>
    if keyfunc it ∈ seen then dedupeAux keyfunc rest seen
    else it :: dedupeAux keyfunc rest (keyfunc it :: seen)

/-- `dedupe_keep_order(items, keyfunc)`. -/
def dedupe_keep_order {α κ : Type} [DecidableEq κ]
    (items : List α) (keyfunc : α → κ) : List α :=
  dedupeAux keyfunc items []

/-- The fingerprint used by `fetch_news_rss`:
`hashlib.md5(x["title"].lower().encode()).hexdigest()`, with `hash`
standing for the md5 hexdigest. -/
def titleFingerprint (hash : String → String) (x : Entry) : String :=
  hash x.title.toLower

/-- The normalization loop of `fetch_news_rss`: parse the time, drop
entries outside the 10-day window, clean the title, drop empty titles. -/
def processEntries (now : ℤ) (raw : List RawEntry) : List Entry :=
  raw.filterMap fun e =>
    let dt := parse_time e now
    if ¬ within_last_n_days dt now 10 then none
    else
      let title := clean_headline e.title
      if title = "" then none
      else some ⟨title, e.link, dt, e.source⟩

/-- `fetch_news_rss` after feed retrieval: `raw` is the merged, ordered
list of entries of the successfully retrieved feeds; normalize, dedupe by
title fingerprint, truncate to 25. -/
def fetch_news_rss (hash : String → String) (now : ℤ)
    (raw : List RawEntry) : List Entry :=
  (dedupe_keep_order (processEntries now raw) (titleFingerprint hash)).take 25

/-- `analyze_headlines(entries)`: classify each title, skipping entries
whose classification raises. -/
def analyze_headlines (cl : Classifier) : List Entry → List AnalyzedHeadline
  | [] => []
  | e :: rest =>
    match cl e.title with
    | .ok r =>
      ⟨e.title, r.label, r.score, e.link, e.published, e.source⟩ ::
        analyze_headlines cl rest
    | .error _ => analyze_headlines cl rest

/-- Whether classifying the title of `e` succeeds. -/
def clOk (cl : Classifier) (e : Entry) : Bool :=
  match cl e.title with
  | .ok _ => true
  | .error _ => false

/-- The `counts` dictionary computed by the loop of `summarize_impact`.
`SentimentTally` of the spec's data model. -/
structure SentimentTally where
  positive : ℕ
  negative : ℕ
  neutral : ℕ
deriving DecidableEq, Repr

/-- The tally accumulated over `analyzed_list`. -/
def tallyOf (l : List AnalyzedHeadline) : SentimentTally :=
  ⟨l.countP (fun a => a.sentiment == Sentiment.positive),
   l.countP (fun a => a.sentiment == Sentiment.negative),
   l.countP (fun a => a.sentiment == Sentiment.neutral)⟩

/-- `avg_conf` after the loop and the division:
`n = len(analyzed_list) if analyzed_list else 1; avg_conf /= n`. -/
def avgConf (l : List AnalyzedHeadline) : ℚ :=
  (l.map (fun a => a.confidence)).sum /
    (if l.isEmpty then 1 else (l.length : ℚ))

/-- The `tilt` string of `summarize_impact`. -/
def tiltOf (c : SentimentTally) : String :=
  if c.positive > c.negative then "overall leaning positive"
  else if c.negative > c.positive then "overall leaning negative"
  else "overall balanced/neutral"

/-- The `pieces` list built by `summarize_impact(symbol, analyzed_list,
user_text)`.  `user_text = none` models Python `user_text=None`; Python's
`if user_text:` is also false on `some ""`. -/
def summarize_pieces (cl : Classifier) (symbol : String)
    (analyzed_list : List AnalyzedHeadline) (user_text : Option String) :
    List String :=
  let counts := tallyOf analyzed_list
  let avg := avgConf analyzed_list
  let tilt := tiltOf counts
  let p1 := "In the last 10 days, news flow for " ++ symbol.toUpper ++
    " appears " ++ tilt ++ "."
  let p2 := "Observed headlines: " ++ toString counts.positive ++
    " positive, " ++ toString counts.negative ++ " negative, " ++
    toString counts.neutral ++ " neutral with average confidence around " ++
    toString (pyRound1 (avg * 100)) ++ "%."
  let p3 :=
    if counts.negative > counts.positive then
      "This may indicate short-term downside pressure or uncertainty."
    else if counts.positive > counts.negative then
      "This may support a constructive short-term outlook."
    else
      "Signals are mixed; consider waiting for clearer catalysts."
  let userPieces : List String :=
    match user_text with
    | none => []
    | some t =>
      if t = "" then []
      else
        match cl t with
        | .ok ures =>
          let ulabel := ures.label
          let uscore := ures.score
          let p4 := "User-provided news tone is " ++ sentimentStr ulabel ++
            " (confidence " ++ toString (pyRound1 (uscore * 100)) ++ "%)."
          let p5 :=
            match ulabel with
            | .positive =>
              "This could strengthen the positive bias if seen elsewhere."
            | .negative =>
              "This could increase short-term downside risk if confirmed."
            | .neutral =>
              "The user update is neutral and does not change bias."
          [p4, p5]
        | .error ex => ["Could not analyze user text: " ++ ex]
  let closing := "🧠 Plain-English impact on the coherent system: " ++
    "sentiment modifies short-term risk and volatility. Negative tone " ++
    "can elevate drawdowns; positive tone can compress risk premia. " ++
    "Use as context, not as a standalone signal."
  [p1, p2, p3] ++ userPieces ++ [closing]

/-- `summarize_impact`: the joined narrative, `" ".join(pieces)`. -/
def summarize_impact (cl : Classifier) (symbol : String)
    (analyzed_list : List AnalyzedHeadline) (user_text : Option String) :
    String :=
  String.intercalate (String.mk [' ']) (summarize_pieces cl symbol analyzed_list user_text)

/-- The JSON payload returned by `/analyze_news` on success. -/
structure AnalyzePayload where
  symbol : String
  user_sentiment : String
  user_score : ℚ
  last_10d_news : List AnalyzedHeadline
  impact_summary_plain_english : String
deriving DecidableEq, Repr

/-- A route response: the normal payload, or the top-level error object
built by the route's `except` clause. -/
inductive ApiResponse where
  | ok (payload : AnalyzePayload)
  | error (msg : String)
deriving DecidableEq, Repr

/-- `analyze_news(req)`: `raw` is the merged feed-entry list retrieved for
`req.symbol`, `now` the request wall-clock time.  The unguarded
`sentiment_model(req.text)[0]` on line 261 is the only statement of the
route body that can raise, so the route's `except` clause returns the
top-level error payload exactly when `text` is truthy and classifying it
fails. -/
def analyze_news (cl : Classifier) (hash : String → String) (now : ℤ)
    (raw : List RawEntry) (text symbol : String) : ApiResponse :=
  let entries := fetch_news_rss hash now raw
  let analyzed := analyze_headlines cl entries
  let summary := summarize_impact cl symbol analyzed
    (if text = "" then none else some text)
  if text = "" then
    .ok ⟨symbol.toUpper, sentimentStr Sentiment.neutral, 1/2, analyzed, summary⟩
  else
    match cl text with
    | .ok r =>
      .ok ⟨symbol.toUpper, sentimentStr r.label, r.score, analyzed, summary⟩
    | .error ex => .error ("Analysis failed: " ++ ex)

/-- Example classifier that always succeeds with a positive label. -/
def clPosEx : Classifier := fun _ => Except.ok ⟨Sentiment.positive, 1⟩

/-- Example classifier that always raises. -/
def clErrEx : Classifier := fun _ => Except.error ("boom")

/-- Example classifier raising exactly on one user text. -/
def clBoomEx : Classifier := fun s =>
  if s = "bad news" then Except.error ("model crashed")
  else Except.ok ⟨Sentiment.neutral, 9/10⟩

/-- Example classifier succeeding everywhere. -/
def clA10 : Classifier := fun _ => Except.ok ⟨Sentiment.positive, 1⟩

/-- Example classifier agreeing with `clA10` except on the empty string. -/
def clB10 : Classifier := fun s =>
  if s = "" then Except.error ("empty") else Except.ok ⟨Sentiment.positive, 1⟩

/-- Example normalized entry. -/
def entryA : Entry := ⟨"Apple surges", "", 0, none⟩

/-- Example normalized entry whose lower-cased title equals `entryA`'s. -/
def entryB : Entry := ⟨"APPLE surges", "", 0, none⟩

theorem dedupeAux_sublist {α κ : Type} [DecidableEq κ] (key : α → κ) :
    ∀ (l : List α) (seen : List κ), List.Sublist (dedupeAux key l seen) l
  | [], _ => by simp [dedupeAux]
  | it :: rest, seen => by
    unfold dedupeAux
    by_cases h : key it ∈ seen
    · simp only [if_pos h]
      exact List.Sublist.cons it (dedupeAux_sublist key rest seen)
    · simp only [if_neg h]
      exact List.Sublist.cons₂ it (dedupeAux_sublist key rest _)

theorem dedupeAux_not_seen {α κ : Type} [DecidableEq κ] (key : α → κ) :
    ∀ (l : List α) (seen : List κ) (x : α),
      x ∈ dedupeAux key l seen → key x ∉ seen
  | [], _, x => by simp [dedupeAux]
  | it :: rest, seen, x => by
    unfold dedupeAux
    by_cases h : key it ∈ seen
    · simp only [if_pos h]
      exact dedupeAux_not_seen key rest seen x
    · simp only [if_neg h, List.mem_cons]
      rintro (rfl | hx)
      · exact h
      · intro hk
        exact dedupeAux_not_seen key rest _ x hx (List.mem_cons_of_mem _ hk)

theorem dedupeAux_pairwise {α κ : Type} [DecidableEq κ] (key : α → κ) :
    ∀ (l : List α) (seen : List κ),
      (dedupeAux key l seen).Pairwise (fun a b => key a ≠ key b)
  | [], _ => by simp [dedupeAux]
  | it :: rest, seen => by
    unfold dedupeAux
    by_cases h : key it ∈ seen
    · simp only [if_pos h]
      exact dedupeAux_pairwise key rest seen
    · simp only [if_neg h]
      refine List.Pairwise.cons ?_ (dedupeAux_pairwise key rest _)
      intro b hb hkb
      exact dedupeAux_not_seen key rest _ b hb (by rw [← hkb]; exact List.mem_cons_self _ _)

theorem dedupeAux_find_first {α κ : Type} [DecidableEq κ] (key : α → κ) :
    ∀ (l : List α) (seen : List κ) (x : α), x ∈ dedupeAux key l seen →
      l.find? (fun y => key y == key x) = some x
  | [], _, x => by simp [dedupeAux]
  | it :: rest, seen, x => by
    unfold dedupeAux
    by_cases h : key it ∈ seen
    · simp only [if_pos h]
      intro hx
      have hne : key it ≠ key x := by
        intro he
        exact dedupeAux_not_seen key rest seen x hx (he ▸ h)
      rw [List.find?_cons_of_neg _ (by simpa using hne)]
      exact dedupeAux_find_first key rest seen x hx
    · simp only [if_neg h, List.mem_cons]
      rintro (rfl | hx)
      · rw [List.find?_cons_of_pos _ (by simp)]
      · have hne : key x ≠ key it := by
          intro he
          exact dedupeAux_not_seen key rest _ x hx (he ▸ List.mem_cons_self _ _)
        rw [List.find?_cons_of_neg _ (by simpa using hne.symm)]
        exact dedupeAux_find_first key rest _ x hx

theorem dedupeAux_cover {α κ : Type} [DecidableEq κ] (key : α → κ) :
    ∀ (l : List α) (seen : List κ) (x : α), x ∈ l →
      key x ∈ seen ∨ ∃ y ∈ dedupeAux key l seen, key y = key x
  | [], _, x => by simp
  | it :: rest, seen, x => by
    unfold dedupeAux
    by_cases h : key it ∈ seen
    · simp only [if_pos h, List.mem_cons]
      rintro (rfl | hx)
      · exact Or.inl h
      · exact dedupeAux_cover key rest seen x hx
    · simp only [if_neg h, List.mem_cons]
      rintro (rfl | hx)
      · exact Or.inr ⟨x, Or.inl rfl, rfl⟩
      · rcases dedupeAux_cover key rest (key it :: seen) x hx with hs | ⟨y, hy, hky⟩
        · rcases List.mem_cons.mp hs with he | hs
          · exact Or.inr ⟨it, Or.inl rfl, he.symm⟩
          · exact Or.inl hs
        · exact Or.inr ⟨y, Or.inr hy, hky⟩

theorem dedupeAux_of_pairwise {α κ : Type} [DecidableEq κ] (key : α → κ) :
    ∀ (l : List α) (seen : List κ), (∀ x ∈ l, key x ∉ seen) →
      l.Pairwise (fun a b => key a ≠ key b) → dedupeAux key l seen = l
  | [], _ => by simp [dedupeAux]
  | it :: rest, seen => by
    intro hs hp
    unfold dedupeAux
    have h : key it ∉ seen := hs it (List.mem_cons_self _ _)
    rw [if_neg h]
    congr 1
    refine dedupeAux_of_pairwise key rest _ ?_ ((List.pairwise_cons.mp hp).2)
    intro x hx
    simp only [List.mem_cons]
    rintro (he | hmem)
    · exact (List.pairwise_cons.mp hp).1 x hx he.symm
    · exact hs x (List.mem_cons_of_mem _ hx) hmem

theorem processEntries_title_ne (now : ℤ) (raw : List RawEntry) :
    ∀ e ∈ processEntries now raw, e.title ≠ "" := by
  intro e he
  rcases List.mem_filterMap.mp he with ⟨a, _, ha⟩
  dsimp only at ha
  split at ha
  · simp at ha
  · split at ha
    · simp at ha
    · rename_i hne
      rw [Option.some.injEq] at ha
      rw [← ha]
      exact hne

theorem fetch_title_ne (hash : String → String) (now : ℤ) (raw : List RawEntry) :
    ∀ e ∈ fetch_news_rss hash now raw, e.title ≠ "" := by
  intro e he
  have h1 : e ∈ dedupe_keep_order (processEntries now raw) (titleFingerprint hash) :=
    List.mem_of_mem_take he
  have h2 : e ∈ processEntries now raw := (dedupeAux_sublist _ _ _).subset h1
  exact processEntries_title_ne now raw e h2

theorem analyze_headlines_congr (cl cl' : Classifier) :
    ∀ entries : List Entry, (∀ e ∈ entries, cl e.title = cl' e.title) →
      analyze_headlines cl entries = analyze_headlines cl' entries
  | [] => by intro _; rfl
  | e :: t => by
    intro h
    have he := h e (List.mem_cons_self _ _)
    have ht := fun x hx => h x (List.mem_cons_of_mem _ hx)
    unfold analyze_headlines
    rw [he, analyze_headlines_congr cl cl' t ht]

theorem summarize_impact_none_congr (cl cl' : Classifier) (symbol : String)
    (l : List AnalyzedHeadline) :
    summarize_impact cl symbol l none = summarize_impact cl' symbol l none := rfl

/-- C3: for every (possibly empty) list of analyzed headlines the average
confidence computed by `summarize_impact` equals the sum of the items'
confidences divided by `max 1 count`; in particular it is `0` for the
empty list. -/
theorem avgConf_eq_sum_div_max (l : List AnalyzedHeadline) :
    avgConf l =
      (l.map (fun a => a.confidence)).sum / ((max 1 l.length : ℕ) : ℚ) ∧
    avgConf [] = 0 := by
  constructor
  · unfold avgConf
    cases l with
    | nil => simp
    | cons a t =>
      have h : max 1 (a :: t).length = (a :: t).length :=
        Nat.max_eq_right (Nat.succ_le_succ (Nat.zero_le _))
      rw [h]
      simp
  · simp [avgConf]

/-- C3 witness: evaluating the average-confidence equation on a concrete
two-element list. -/
theorem avgConf_eq_sum_div_max_witness :
    avgConf [⟨"a", Sentiment.positive, 1/2, "", 0, none⟩,
             ⟨"b", Sentiment.negative, 1/4, "", 0, none⟩] =
      ((1 : ℚ)/2 + 1/4 + 0) / ((max 1 2 : ℕ) : ℚ) := by
  have h := (avgConf_eq_sum_div_max
    [⟨"a", Sentiment.positive, 1/2, "", 0, none⟩,
     ⟨"b", Sentiment.negative, 1/4, "", 0, none⟩]).1
  rw [h]
  norm_num

/-- C4: the tilt is "overall leaning positive" exactly when
`positive > negative`, "overall leaning negative" exactly when
`negative > positive`, "overall balanced/neutral" exactly when the two
counts are equal, and the neutral count never affects the tilt. -/
theorem tiltOf_characterization (c : SentimentTally) :
    ((tiltOf c = "overall leaning positive") ↔ c.positive > c.negative) ∧
    ((tiltOf c = "overall leaning negative") ↔ c.negative > c.positive) ∧
    ((tiltOf c = "overall balanced/neutral") ↔ c.positive = c.negative) ∧
    (∀ n, tiltOf ⟨c.positive, c.negative, n⟩ = tiltOf c) := by
  refine ⟨?_, ?_, ?_, fun n => rfl⟩
  · unfold tiltOf
    rcases Nat.lt_trichotomy c.positive c.negative with h | h | h
    · rw [if_neg (by omega), if_pos (by omega)]
      exact iff_of_false (by decide) (by omega)
    · rw [if_neg (by omega), if_neg (by omega)]
      exact iff_of_false (by decide) (by omega)
    · rw [if_pos (by omega)]
      exact iff_of_true rfl (by omega)
  · unfold tiltOf
    rcases Nat.lt_trichotomy c.positive c.negative with h | h | h
    · rw [if_neg (by omega), if_pos (by omega)]
      exact iff_of_true rfl (by omega)
    · rw [if_neg (by omega), if_neg (by omega)]
      exact iff_of_false (by decide) (by omega)
    · rw [if_pos (by omega)]
      exact iff_of_false (by decide) (by omega)
  · unfold tiltOf
    rcases Nat.lt_trichotomy c.positive c.negative with h | h | h
    · rw [if_neg (by omega), if_pos (by omega)]
      exact iff_of_false (by decide) (by omega)
    · rw [if_neg (by omega), if_neg (by omega)]
      exact iff_of_true rfl (by omega)
    · rw [if_pos (by omega)]
      exact iff_of_false (by decide) (by omega)

/-- C4 witness: the tie-break at the concrete tally {3, 3, 1}. -/
theorem tiltOf_characterization_witness :
    tiltOf ⟨3, 3, 1⟩ = "overall balanced/neutral" :=
  ((tiltOf_characterization ⟨3, 3, 1⟩).2.2.1).mpr rfl

/-- C8: the recency filter retains exactly the timestamps at least
`now - 10 days`; a timestamp 10 days and 1 second before `now` is
rejected and one 9 days 23 hours before `now` is retained. -/
theorem within_last_n_days_window (dt now : ℤ) :
    (within_last_n_days dt now 10 = false ↔ dt < now - 10 * 86400) ∧
    within_last_n_days (now - (10 * 86400 + 1)) now 10 = false ∧
    within_last_n_days (now - (9 * 86400 + 23 * 3600)) now 10 = true := by
  unfold within_last_n_days
  refine ⟨?_, ?_, ?_⟩
  · rw [decide_eq_false_iff_not]
    omega
  · rw [decide_eq_false_iff_not]
    omega
  · rw [decide_eq_true_eq]
    omega

/-- C8 witness: the boundary inputs evaluated at `now = 0`. -/
theorem within_last_n_days_window_witness :
    within_last_n_days (0 - (10 * 86400 + 1)) 0 10 = false ∧
    within_last_n_days (0 - (9 * 86400 + 23 * 3600)) 0 10 = true :=
  ⟨(within_last_n_days_window 0 0).2.1, (within_last_n_days_window 0 0).2.2⟩

/-- C6: the aggregation pipeline returns at most 25 headlines and never
more than the number of raw input entries. -/
theorem fetch_news_rss_length_le (hash : String → String) (now : ℤ)
    (raw : List RawEntry) :
    (fetch_news_rss hash now raw).length ≤ 25 ∧
    (fetch_news_rss hash now raw).length ≤ raw.length := by
  unfold fetch_news_rss
  constructor
  · rw [List.length_take]
    exact min_le_left _ _
  · have h1 : (List.take 25 (dedupe_keep_order (processEntries now raw)
        (titleFingerprint hash))).length ≤
        (dedupe_keep_order (processEntries now raw) (titleFingerprint hash)).length := by
      rw [List.length_take]
      exact min_le_right _ _
    have h2 : (dedupe_keep_order (processEntries now raw)
        (titleFingerprint hash)).length ≤ (processEntries now raw).length :=
      (dedupeAux_sublist _ _ _).length_le
    have h3 : (processEntries now raw).length ≤ raw.length :=
      List.length_filterMap_le _ _
    omega

/-- C6 witness: the bounds evaluated on a concrete one-entry input. -/
theorem fetch_news_rss_length_le_witness :
    (fetch_news_rss id 0 [⟨"t", "", some 0, none, none⟩]).length ≤ 25 ∧
    (fetch_news_rss id 0 [⟨"t", "", some 0, none, none⟩]).length ≤
      [(⟨"t", "", some 0, none, none⟩ : RawEntry)].length :=
  fetch_news_rss_length_le id 0 [⟨"t", "", some 0, none, none⟩]

/-- C5: over the merged, ordered entry list, no two retained entries share
a title fingerprint, the retained entry of each fingerprint is the first
occurrence of that fingerprint in the input, the output is a sublist of
the input (relative order preserved), and every input fingerprint is
represented. -/
theorem dedupe_fingerprint_first_wins (hash : String → String)
    (entries : List Entry) :
    ((dedupe_keep_order entries (titleFingerprint hash)).Pairwise
      (fun a b => titleFingerprint hash a ≠ titleFingerprint hash b)) ∧
    (∀ x ∈ dedupe_keep_order entries (titleFingerprint hash),
      entries.find?
        (fun y => titleFingerprint hash y == titleFingerprint hash x) =
        some x) ∧
    List.Sublist (dedupe_keep_order entries (titleFingerprint hash)) entries ∧
    (∀ x ∈ entries, ∃ y ∈ dedupe_keep_order entries (titleFingerprint hash),
      titleFingerprint hash y = titleFingerprint hash x) := by
  refine ⟨dedupeAux_pairwise _ _ _, ?_, dedupeAux_sublist _ _ _, ?_⟩
  · intro x hx
    exact dedupeAux_find_first _ _ _ x hx
  · intro x hx
    rcases dedupeAux_cover (titleFingerprint hash) entries [] x hx with hs | h
    · simp at hs
    · exact h

/-- C5 witness: on two entries whose lower-cased titles coincide, the
retained representative is the first occurrence. -/
theorem dedupe_fingerprint_first_wins_witness :
    [entryA, entryB].find?
      (fun y => titleFingerprint id y == titleFingerprint id entryA) =
      some entryA :=
  (dedupe_fingerprint_first_wins id [entryA, entryB]).2.1 entryA (by decide)

/-- C7: `dedupe_keep_order` is idempotent: a list already deduplicated by
its key is returned unchanged, and applying it twice equals applying it
once. -/
theorem dedupe_keep_order_idempotent {α κ : Type} [DecidableEq κ]
    (key : α → κ) (l : List α) :
    (l.Pairwise (fun a b => key a ≠ key b) → dedupe_keep_order l key = l) ∧
    dedupe_keep_order (dedupe_keep_order l key) key =
      dedupe_keep_order l key := by
  have base : ∀ m : List α, m.Pairwise (fun a b => key a ≠ key b) →
      dedupe_keep_order m key = m := by
    intro m hm
    exact dedupeAux_of_pairwise key m [] (by simp) hm
  exact ⟨base l, base _ (dedupeAux_pairwise key l [])⟩

/-- C7 witness: a concrete key-distinct list is returned unchanged. -/
theorem dedupe_keep_order_idempotent_witness :
    dedupe_keep_order [1, 2] (fun n : ℕ => n) = [1, 2] :=
  (dedupe_keep_order_idempotent (fun n : ℕ => n) [1, 2]).1 (by decide)

/-- C9: failing classifications are skipped without aborting the batch:
the analyzed output equals the output on the sublist of entries whose
classification succeeds, its length is the number of succeeding entries,
and every succeeding entry contributes its analyzed item. -/
theorem analyze_headlines_skip_failures (cl : Classifier)
    (entries : List Entry) :
    analyze_headlines cl entries =
      analyze_headlines cl (entries.filter (clOk cl)) ∧
    (analyze_headlines cl entries).length = entries.countP (clOk cl) ∧
    (∀ e ∈ entries, ∀ r, cl e.title = Except.ok r →
      (⟨e.title, r.label, r.score, e.link, e.published, e.source⟩ :
        AnalyzedHeadline) ∈ analyze_headlines cl entries) := by
  refine ⟨?_, ?_, ?_⟩
  · induction entries with
    | nil => rfl
    | cons e t ih =>
      cases h : cl e.title with
      | ok r => simp [analyze_headlines, List.filter_cons, clOk, h, ih]
      | error ex => simp [analyze_headlines, List.filter_cons, clOk, h, ih]
  · induction entries with
    | nil => rfl
    | cons e t ih =>
      cases h : cl e.title with
      | ok r => simp [analyze_headlines, List.countP_cons, clOk, h, ih]
      | error ex => simp [analyze_headlines, List.countP_cons, clOk, h, ih]
  · induction entries with
    | nil =>
      intro e he
      simp at he
    | cons e t ih =>
      intro e' he' r hr
      rcases List.mem_cons.mp he' with rfl | hmem
      · simp [analyze_headlines, hr]
      · cases h : cl e.title with
        | ok r2 =>
          simp only [analyze_headlines, h]
          exact List.mem_cons_of_mem _ (ih e' hmem r hr)
        | error ex =>
          simp only [analyze_headlines, h]
          exact ih e' hmem r hr

/-- C9 witness: a succeeding entry contributes its analyzed item. -/
theorem analyze_headlines_skip_failures_witness :
    (⟨entryA.title, Sentiment.positive, 1, entryA.link, entryA.published,
      entryA.source⟩ : AnalyzedHeadline) ∈
      analyze_headlines clPosEx [entryA] :=
  (analyze_headlines_skip_failures clPosEx [entryA]).2.2 entryA (by decide)
    ⟨Sentiment.positive, 1⟩ rfl

/-- C1 counterexample: with user text supplied and classified
successfully the narrative has 6 sentences, not 5 as claimed (the report
sentence and the label-specific follow-on are two separate sentences). -/
theorem summarize_pieces_success_count_ne_five :
    (summarize_pieces clPosEx ("AAPL") [] (some ("good"))).length = 6 ∧
    ¬ (summarize_pieces clPosEx ("AAPL") [] (some ("good"))).length = 5 := by
  constructor
  · rfl
  · decide

/-- C1 (amended): the narrative has exactly 4 sentences when no (truthy)
user text is supplied, exactly 6 when user text is supplied and
classified successfully, and exactly 5 when its classification fails. -/
theorem summarize_pieces_count (cl : Classifier) (symbol : String)
    (analyzed_list : List AnalyzedHeadline) (ut : Option String) :
    ((ut = none ∨ ut = some "") →
      (summarize_pieces cl symbol analyzed_list ut).length = 4) ∧
    (∀ t r, ut = some t → t ≠ "" → cl t = Except.ok r →
      (summarize_pieces cl symbol analyzed_list ut).length = 6) ∧
    (∀ t ex, ut = some t → t ≠ "" → cl t = Except.error ex →
      (summarize_pieces cl symbol analyzed_list ut).length = 5) := by
  refine ⟨?_, ?_, ?_⟩
  · rintro (rfl | rfl) <;> simp [summarize_pieces]
  · rintro t r rfl ht hcl
    simp [summarize_pieces, ht, hcl]
  · rintro t ex rfl ht hcl
    simp [summarize_pieces, ht, hcl]

/-- C1 witness: user text whose classification fails yields a 5-sentence
narrative. -/
theorem summarize_pieces_count_witness :
    (summarize_pieces clErrEx ("AAPL") [] (some ("bad"))).length = 5 :=
  (summarize_pieces_count clErrEx ("AAPL") [] (some ("bad"))).2.2 ("bad")
    ("boom") rfl (by decide) rfl

/-- C2 (code bug): when classifying the supplied user text fails, the
narrative that `summarize_impact` built does carry the inline
"Could not analyze user text" sentence, but `analyze_news` then reruns
the classifier on the same text outside any inner guard (line 261), the
failure escapes to the route's `except` clause, and the endpoint returns
a top-level error payload instead of the response with the summary. -/
theorem analyze_news_user_failure_top_level_error :
    analyze_news clBoomEx id 0 [] ("bad news") ("AAPL") =
      ApiResponse.error ("Analysis failed: model crashed") ∧
    (summarize_pieces clBoomEx ("AAPL")
        (analyze_headlines clBoomEx (fetch_news_rss id 0 []))
        (some ("bad news")))[3]? =
      some ("Could not analyze user text: model crashed") := by
  constructor
  · rfl
  · rfl

/-- C10: an empty user text takes the default branch: the response is the
summary built with no user text together with user sentiment "neutral"
and score 1/2, and the classifier is never invoked on the empty text — two
classifiers that agree on all non-empty strings give identical
responses. -/
theorem analyze_news_empty_text_default (cl cl' : Classifier)
    (hash : String → String) (now : ℤ) (raw : List RawEntry)
    (symbol : String) (hagree : ∀ s, s ≠ "" → cl s = cl' s) :
    analyze_news cl hash now raw ("") symbol =
      ApiResponse.ok ⟨symbol.toUpper, sentimentStr Sentiment.neutral, 1/2,
        analyze_headlines cl (fetch_news_rss hash now raw),
        summarize_impact cl symbol
          (analyze_headlines cl (fetch_news_rss hash now raw)) none⟩ ∧
    analyze_news cl hash now raw ("") symbol =
      analyze_news cl' hash now raw ("") symbol := by
  have hml : analyze_headlines cl (fetch_news_rss hash now raw) =
      analyze_headlines cl' (fetch_news_rss hash now raw) :=
    analyze_headlines_congr cl cl' _
      (fun e he => hagree e.title (fetch_title_ne hash now raw e he))
  have e1 : analyze_news cl hash now raw ("") symbol =
      ApiResponse.ok ⟨symbol.toUpper, sentimentStr Sentiment.neutral, 1/2,
        analyze_headlines cl (fetch_news_rss hash now raw),
        summarize_impact cl symbol
          (analyze_headlines cl (fetch_news_rss hash now raw)) none⟩ := rfl
  have e2 : analyze_news cl' hash now raw ("") symbol =
      ApiResponse.ok ⟨symbol.toUpper, sentimentStr Sentiment.neutral, 1/2,
        analyze_headlines cl' (fetch_news_rss hash now raw),
        summarize_impact cl' symbol
          (analyze_headlines cl' (fetch_news_rss hash now raw)) none⟩ := rfl
  refine ⟨e1, ?_⟩
  rw [e1, e2, hml, summarize_impact_none_congr cl cl' symbol]

/-- C10 witness: two classifiers differing only on the empty string give
the same response for an empty-text request. -/
theorem analyze_news_empty_text_default_witness :
    analyze_news clA10 id 0 [] ("") ("AAPL") =
      analyze_news clB10 id 0 [] ("") ("AAPL") :=
  (analyze_news_empty_text_default clA10 clB10 id 0 [] ("AAPL")
    (fun s hs => by simp [clA10, clB10, hs])).2
